import Mathlib

/-!
Shallow embedding of the task-tracking backend
(`src/backend/src/models/*.py`, `src/backend/src/services/*.py`,
`src/backend/src/api/v1/*.py`).

Modelling conventions:
* `datetime` instants are `Nat`; the database state carries a strictly
  increasing instant counter `clock`, and every `datetime.utcnow()` call in
  the source reads the counter and advances it.
* UUIDs are `Nat` identifiers drawn from counters in the state.
* SQLAlchemy's nullable columns and optional Python parameters are `Option`.
* Each `db.commit()` in the source durably applies the pending writes of the
  session; successive commits are separate transactions, exactly as in the
  source, which matters for the atomicity analysis of `create_task`.
* A raised `HTTPException 403` is `Except.error ServiceError.forbidden`;
  the services signal "not found" by returning `none`, as the source does.
-/

namespace Todo

/-- Action kinds of a history row, from `models/task_history.py`
(`class ActionType(str, enum.Enum)`). -/
inductive ActionType where
  | CREATED
  | UPDATED
  | DELETED
  | COMPLETED
  | INCOMPLETED
deriving DecidableEq, Repr

/-- A row of the `tasks` table, from `models/task.py`. -/
structure Task where
  id : Nat
  title : String
  description : Option String
  is_completed : Bool
  created_at : Nat
  updated_at : Nat
  completed_at : Option Nat
  user_id : Option String
deriving DecidableEq, Repr

/-- A row of the `task_history` table, from `models/task_history.py`.
The table declares no acting-user column; `TaskService.log_history` passes a
`user_id` argument but the model stores only these five columns. -/
structure TaskHistory where
  history_id : Nat
  task_id : Nat
  action_type : ActionType
  description : Option String
  timestamp : Nat
deriving DecidableEq, Repr

/-- The committed database state plus the instant counter and the id
counters that stand in for `uuid.uuid4` / `datetime.utcnow`. -/
structure DB where
  tasks : List Task
  history : List TaskHistory
  clock : Nat
  nextTaskId : Nat
  nextHistoryId : Nat
deriving DecidableEq, Repr

/-- The one service-level exception: `HTTPException 403` raised by
`TaskService.get_task` for a task owned by a different user. -/
inductive ServiceError where
  | forbidden
deriving DecidableEq, Repr

/-- Truthiness of an optional Python string: `None` and `""` are falsy.
Used wherever the source tests a `str` parameter with `if x:` or `not x`. -/
def truthyStr : Option String → Bool
  | none => false
  | some s => !(s == "")

namespace TaskService

/-- Embeds `TaskService.log_history` (task_service.py lines 219-237):
builds a `TaskHistory` row (timestamp defaulting to now) and commits it in
its own transaction.  The `user_id` argument of the source has no
corresponding column in `models/task_history.py`, so it is not stored. -/
def log_history (db : DB) (task_id : Nat) (action : ActionType)
    (description : Option String) : DB :=
  let h : TaskHistory :=
    { history_id := db.nextHistoryId
      task_id := task_id
      action_type := action
      description := description
      timestamp := db.clock }
  { db with
      history := db.history ++ [h]
      clock := db.clock + 1
      nextHistoryId := db.nextHistoryId + 1 }

/-- First half of `TaskService.create_task` (lines 26-29): build the `Task`
with the column defaults of `models/task.py` (`is_completed=False`,
`created_at`/`updated_at` now, `completed_at` NULL), `db.add`, `db.commit`.
After this commit the task row is durable. -/
def insert_task_commit (db : DB) (title : String) (description : Option String)
    (user_id : Option String) : DB × Task :=
  let t : Task :=
    { id := db.nextTaskId
      title := title
      description := description
      is_completed := false
      created_at := db.clock
      updated_at := db.clock
      completed_at := none
      user_id := user_id }
  ({ db with
      tasks := db.tasks ++ [t]
      clock := db.clock + 1
      nextTaskId := db.nextTaskId + 1 }, t)

/-- Embeds `TaskService.create_task` (lines 13-34): commit the task, then
append the CREATED history row via `log_history` (a second commit). -/
def create_task (db : DB) (title : String) (description : Option String)
    (user_id : Option String) : DB × Task :=
  let (db1, t) := insert_task_commit db title description user_id
  (log_history db1 t.id ActionType.CREATED (some "Task created"), t)

/-- State reached when the history write inside `create_task` fails: the
source committed the task (line 28) in its own transaction before calling
`log_history`, whose separate `db.commit()` (line 237) raises; the failed
second transaction rolls back only the history row, so the state is exactly
the one left by the first commit. -/
def create_task_histFail (db : DB) (title : String) (description : Option String)
    (user_id : Option String) : DB :=
  (insert_task_commit db title description user_id).1

/-- Ordering used by `TaskService.get_all_tasks`'s
`ORDER BY is_completed ASC, created_at DESC`: incomplete rows precede
complete ones, and within equal completion flags newer `created_at` first. -/
def taskLe (a b : Task) : Prop :=
  (a.is_completed = false ∧ b.is_completed = true) ∨
    (a.is_completed = b.is_completed ∧ b.created_at ≤ a.created_at)

instance : DecidableRel taskLe := by
  intro a b
  unfold taskLe
  infer_instance

instance : IsTotal Task taskLe := by
  constructor
  intro a b
  unfold taskLe
  rcases ha : a.is_completed <;> rcases hb : b.is_completed <;> simp <;>
    omega

instance : IsTrans Task taskLe := by
  constructor
  intro a b c hab hbc
  unfold taskLe at *
  rcases hab with ⟨ha, hb⟩ | ⟨hab, h1⟩ <;>
    rcases hbc with ⟨hb2, hc⟩ | ⟨hbc, h2⟩
  · exact absurd hb2 (by simp [hb])
  · exact Or.inl ⟨ha, by rw [← hbc, hb]⟩
  · exact Or.inl ⟨by rw [hab, hb2], hc⟩
  · exact Or.inr ⟨by rw [hab, hbc], le_trans h2 h1⟩

/-- Embeds `TaskService.get_all_tasks` (lines 37-53): filter to the given
user's tasks and apply the `ORDER BY` above.  SQL does not fix the relative
order of rows with equal keys; the sort is modelled by a sort that is
correct for the declared keys. -/
def get_all_tasks (db : DB) (user_id : Option String) : List Task :=
  (db.tasks.filter (fun t => t.user_id == user_id)).insertionSort taskLe

/-- Embeds `TaskService.get_task` (lines 56-84): first row with the id, or
`none` when absent (line 75, mapped to 404 by the API layer); raises
`HTTPException 403` when the row's owner differs from the caller. -/
def get_task (db : DB) (task_id : Nat) (user_id : Option String) :
    Except ServiceError (Option Task) :=
  match db.tasks.find? (fun t => t.id == task_id) with
  | none => .ok none
  | some t =>
      if t.user_id ≠ user_id then .error .forbidden
      else .ok (some t)

/-- Replaces the row with the given id, the effect of the source's ORM
attribute writes on the fetched object followed by `db.commit()`. -/
def replaceTask (db : DB) (task_id : Nat) (t : Task) : DB :=
  { db with tasks := db.tasks.map (fun x => if x.id == task_id then t else x) }

/-- The change-summary fragments of `TaskService.update_task`
(lines 121-125): `if title and title != old_title` appends the title
fragment; `if description != old_desc` compares the supplied value (possibly
`None`) against the old column value. -/
def update_change_details (title : Option String) (description : Option String)
    (old_title : String) (old_desc : Option String) : List String :=
  (match title with
   | some s =>
      if !(s == "") ∧ s ≠ old_title then
        [s!"title: \x27{old_title}\x27 -> \x27{s}\x27"]
      else []
   | none => []) ++
  (if description ≠ old_desc then ["description updated"] else [])

/-- Embeds `TaskService.update_task` (lines 87-129): resolve via `get_task`
(propagating `none` / 403), overwrite only the supplied fields
(`if title is not None`, `if description is not None`), set `updated_at`,
commit, then log an UPDATED row whose description joins the change
fragments with "; ". -/
def update_task (db : DB) (task_id : Nat) (title : Option String)
    (description : Option String) (user_id : Option String) :
    DB × Except ServiceError (Option Task) :=
  match get_task db task_id user_id with
  | .error e => (db, .error e)
  | .ok none => (db, .ok none)
  | .ok (some task) =>
      let old_title := task.title
      let old_desc := task.description
      let t' : Task :=
        { task with
            title := title.getD task.title
            description := match description with
              | some d => some d
              | none => task.description
            updated_at := db.clock }
      let db1 : DB := { replaceTask db task_id t' with clock := db.clock + 1 }
      let summary := String.intercalate "; "
        (update_change_details title description old_title old_desc)
      (log_history db1 task_id ActionType.UPDATED (some summary), .ok (some t'))

/-- Embeds `TaskService.delete_task` (lines 132-156): resolve via
`get_task`, log the DELETED row first, then `db.delete(task); db.commit()`.
The schema's `ondelete="CASCADE"` on `task_history.task_id` removes the
task's history rows with it. -/
def delete_task (db : DB) (task_id : Nat) (user_id : Option String) :
    DB × Except ServiceError Bool :=
  match get_task db task_id user_id with
  | .error e => (db, .error e)
  | .ok none => (db, .ok false)
  | .ok (some task) =>
      let db1 := log_history db task_id ActionType.DELETED
        (some ("Task deleted: " ++ task.title))
      let db2 : DB :=
        { db1 with
            tasks := db1.tasks.filter (fun x => !(x.id == task_id))
            history := db1.history.filter (fun h => !(h.task_id == task_id)) }
      (db2, .ok true)

/-- Embeds `TaskService.mark_complete` (lines 159-186): resolve via
`get_task`, set `is_completed=True`, `completed_at=utcnow()`,
`updated_at=utcnow()` (two instants), commit, log a COMPLETED row. -/
def mark_complete (db : DB) (task_id : Nat) (user_id : Option String) :
    DB × Except ServiceError (Option Task) :=
  match get_task db task_id user_id with
  | .error e => (db, .error e)
  | .ok none => (db, .ok none)
  | .ok (some task) =>
      let t' : Task :=
        { task with
            is_completed := true
            completed_at := some db.clock
            updated_at := db.clock + 1 }
      let db1 : DB := { replaceTask db task_id t' with clock := db.clock + 2 }
      (log_history db1 task_id ActionType.COMPLETED
        (some "Task marked as completed"), .ok (some t'))

/-- Embeds `TaskService.mark_incomplete` (lines 189-216): resolve via
`get_task`, set `is_completed=False`, `completed_at=None`,
`updated_at=utcnow()`, commit, log an INCOMPLETED row. -/
def mark_incomplete (db : DB) (task_id : Nat) (user_id : Option String) :
    DB × Except ServiceError (Option Task) :=
  match get_task db task_id user_id with
  | .error e => (db, .error e)
  | .ok none => (db, .ok none)
  | .ok (some task) =>
      let t' : Task :=
        { task with
            is_completed := false
            completed_at := none
            updated_at := db.clock }
      let db1 : DB := { replaceTask db task_id t' with clock := db.clock + 1 }
      (log_history db1 task_id ActionType.INCOMPLETED
        (some "Task marked as incomplete"), .ok (some t'))

end TaskService

namespace HistoryService

/-- Ordering used by `HistoryService.get_history_paginated`'s
`ORDER BY timestamp DESC`: newer timestamps first. -/
def histLe (a b : TaskHistory) : Prop :=
  b.timestamp ≤ a.timestamp

instance : DecidableRel histLe := by
  intro a b
  unfold histLe
  infer_instance

instance : IsTotal TaskHistory histLe :=
  ⟨fun a b => le_total b.timestamp a.timestamp⟩

instance : IsTrans TaskHistory histLe :=
  ⟨fun _ _ _ hab hbc => le_trans hbc hab⟩

/-- The query of `HistoryService.get_history_paginated` before slicing
(history_service.py lines 14-20): all history rows ordered by timestamp
descending, filtered by task and/or action kind when those arguments are
given.  The source applies no owner filter: the function has no user
parameter at all.  (The Python truthiness tests `if task_id:` /
`if action_type:` are `Option`-presence here: a UUID object and the
non-empty action-kind strings are always truthy.) -/
def matching_history (db : DB) (task_id : Option Nat)
    (action_type : Option ActionType) : List TaskHistory :=
  let sorted := db.history.insertionSort histLe
  let q1 := match task_id with
    | some tid => sorted.filter (fun h => h.task_id == tid)
    | none => sorted
  match action_type with
  | some a => q1.filter (fun h => h.action_type == a)
  | none => q1

/-- The pagination metadata block of `get_history_paginated`. -/
structure Pagination where
  total_count : Nat
  total_pages : Nat
  current_page : Nat
  page_size : Nat
  has_next : Bool
  has_prev : Bool
deriving DecidableEq, Repr

/-- Return shape of `get_history_paginated`. -/
structure PaginatedHistory where
  items : List TaskHistory
  pagination : Pagination
deriving DecidableEq, Repr

/-- Embeds `HistoryService.get_history_paginated` (lines 12-44): count the
matching rows, slice with `offset`/`limit` when `offset` is given (current
page `offset // limit + 1`) else with `(page - 1) * limit` (current page
`page`), and report `total_pages = (total_count + limit - 1) // limit`,
`has_next = current_page < total_pages`, `has_prev = current_page > 1`. -/
def get_history_paginated (db : DB) (page limit : Nat) (offset : Option Nat)
    (task_id : Option Nat) (action_type : Option ActionType) :
    PaginatedHistory :=
  let rows := matching_history db task_id action_type
  let total_count := rows.length
  let sliced : List TaskHistory × Nat :=
    match offset with
    | some o => ((rows.drop o).take limit, o / limit + 1)
    | none => ((rows.drop ((page - 1) * limit)).take limit, page)
  let total_pages := (total_count + limit - 1) / limit
  { items := sliced.1
    pagination :=
      { total_count := total_count
        total_pages := total_pages
        current_page := sliced.2
        page_size := limit
        has_next := decide (sliced.2 < total_pages)
        has_prev := decide (1 < sliced.2) } }

/-- Return shape of `get_weekly_stats`. -/
structure WeeklyStats where
  tasks_created_this_week : Nat
  tasks_completed_this_week : Nat
  total_completed : Nat
  total_incomplete : Nat
  week_start : Nat
  week_end : Nat
  total_tasks : Nat
deriving DecidableEq, Repr

/-- Embeds `HistoryService.get_weekly_stats` (lines 47-77): predicate counts
over the whole `tasks` table, with no owner filter anywhere (the function
has no user parameter).  A SQL comparison on a NULL `completed_at` is not
satisfied, hence the `Option.rec`-style guard on the weekly completed
count.  The week boundaries come from `src/utils/timestamps
.get_week_boundaries`, a module not under src/, so they are taken here as
parameters. -/
def get_weekly_stats (db : DB) (week_start week_end : Nat) : WeeklyStats :=
  { total_tasks := db.tasks.length
    total_completed := (db.tasks.filter (fun t => t.is_completed)).length
    total_incomplete := (db.tasks.filter (fun t => t.is_completed == false)).length
    tasks_created_this_week :=
      (db.tasks.filter (fun t =>
        decide (week_start ≤ t.created_at) && decide (t.created_at ≤ week_end))).length
    tasks_completed_this_week :=
      (db.tasks.filter (fun t =>
        match t.completed_at with
        | some c => decide (week_start ≤ c) && decide (c ≤ week_end)
        | none => false)).length
    week_start := week_start
    week_end := week_end }

end HistoryService

/-- Modelled from the spec: `src.utils.validators.validate_title` is not
under src/. Spec §4.1: the title must be non-empty after trimming and at
most 255 characters ("title: must be 1-255 characters"). -/
def validate_title (t : String) : Bool :=
  decide (1 ≤ t.trim.length) && decide (t.length ≤ 255)

/-- Modelled from the spec: `src.utils.validators.validate_description` is
not under src/. Spec §4.1: the description may be 0-5000 characters. -/
def validate_description (d : String) : Bool :=
  decide (d.length ≤ 5000)

/-- Outcomes of the `PUT /tasks/{id}` route handler. -/
inductive UpdateResult where
  | atLeastOneFieldError
  | titleInvalid
  | descriptionInvalid
  | notFoundError
  | forbiddenError
  | ok (t : Task)
deriving DecidableEq, Repr

/-- Embeds the `update_task` route handler (`api/v1/tasks.py` lines 50-71):
reject with "At least one field (title or description) must be provided"
when `not task_update.title and not task_update.description` (Python
truthiness, so `None` and `""` both count as missing); validate a truthy
title and a non-`None` description; then call the service, mapping `None`
to a 404 response and the 403 exception to a forbidden response. -/
def update_task_endpoint (db : DB) (task_id : Nat) (title : Option String)
    (description : Option String) (user_id : Option String) :
    DB × UpdateResult :=
  if !truthyStr title && !truthyStr description then
    (db, .atLeastOneFieldError)
  else if truthyStr title && !(validate_title (title.getD "")) then
    (db, .titleInvalid)
  else if description.isSome && !(validate_description (description.getD "")) then
    (db, .descriptionInvalid)
  else
    match TaskService.update_task db task_id title description user_id with
    | (db1, .error .forbidden) => (db1, .forbiddenError)
    | (db1, .ok none) => (db1, .notFoundError)
    | (db1, .ok (some t)) => (db1, .ok t)

/-- Embeds the `/stats/weekly` route handler (`api/v1/stats.py` lines 9-22):
its only dependency is the database session (`Depends(get_db)`); it
resolves no caller identity and simply returns the service's counts. -/
def weekly_stats_endpoint (db : DB) (week_start week_end : Nat) :
    HistoryService.WeeklyStats :=
  HistoryService.get_weekly_stats db week_start week_end

/-! Concrete states used by the concrete evaluations below. -/

/-- Example task of owner "A" with a non-null description. -/
def taskHello : Task :=
  { id := 1, title := "a", description := some "hello", is_completed := false
    created_at := 0, updated_at := 0, completed_at := none, user_id := some "A" }

/-- Example task of a different owner "B". -/
def taskOther : Task :=
  { id := 2, title := "b", description := none, is_completed := false
    created_at := 1, updated_at := 1, completed_at := none, user_id := some "B" }

/-- History row of owner "A"'s task. -/
def rowA : TaskHistory :=
  { history_id := 1, task_id := 1, action_type := .CREATED
    description := some "Task created", timestamp := 0 }

/-- History row of owner "B"'s task. -/
def rowB : TaskHistory :=
  { history_id := 2, task_id := 2, action_type := .CREATED
    description := some "Task created", timestamp := 1 }

/-- The empty store. -/
def emptyDB : DB :=
  { tasks := [], history := [], clock := 0, nextTaskId := 1, nextHistoryId := 1 }

/-- A store holding one task per owner, with one history row each. -/
def dbTwoOwners : DB :=
  { tasks := [taskHello, taskOther], history := [rowA, rowB]
    clock := 5, nextTaskId := 3, nextHistoryId := 3 }

/-- A store holding only owner "A"'s task. -/
def dbHello : DB :=
  { tasks := [taskHello], history := [], clock := 5, nextTaskId := 2, nextHistoryId := 1 }

/-- C1: the claim asserts that every write operation commits its Task
mutation and its history row in one atomic transaction, so that after a
failed history append the created Task is not observable.  The source
instead commits the Task (task_service.py line 28) before `log_history`
runs its own separate commit (line 237): when the history write fails, the
state still holds the created task and no history row at all, so the
created Task is observable without its paired CREATED row. -/
theorem create_histFail_leaves_task_persisted :
    (TaskService.create_task_histFail emptyDB "t" none (some "u")).tasks
        = [{ id := 1, title := "t", description := none, is_completed := false
             created_at := 0, updated_at := 0, completed_at := none
             user_id := some "u" }] ∧
    (TaskService.create_task_histFail emptyDB "t" none (some "u")).history = [] :=
  ⟨rfl, rfl⟩

/-- C2: the claim asserts that every history row returned by
`get_history_paginated` belongs to a task owned by the caller.  The service
has no owner parameter and applies no owner filter (and the `/history`
route even passes `user_id` into the service's `page` parameter — one
positional argument too many), so with caller "A" the row of owner "B"'s
task is returned. -/
theorem history_paginated_returns_other_owners_row :
    rowB ∈ (HistoryService.get_history_paginated dbTwoOwners 1 10 none none none).items ∧
    taskOther ∈ dbTwoOwners.tasks ∧
    rowB.task_id = taskOther.id ∧
    taskOther.user_id = some "B" ∧
    taskHello.user_id = some "A" ∧
    (some "B" : Option String) ≠ some "A" := by
  refine ⟨?_, ?_, rfl, rfl, rfl, by decide⟩
  · decide
  · decide

/-- C6: the claim asserts the UPDATED history description contains
"description updated" exactly when the supplied description changed the
task, and in particular that a title-only update never records it.  The
source's `if description != old_desc` (task_service.py line 124) compares
the unsupplied `None` against the stored description, so updating only the
title of a task whose description is non-null logs "description updated"
while the stored description is in fact unchanged. -/
theorem update_title_only_records_description_updated :
    ((TaskService.update_task dbHello 1 (some "b2") none (some "A")).1.history.map
        (fun h => (h.action_type, h.description)))
      = [(ActionType.UPDATED,
          some "title: \x27a\x27 -> \x27b2\x27; description updated")] ∧
    ((TaskService.update_task dbHello 1 (some "b2") none (some "A")).1.tasks.map
        (fun t => t.description)) = [some "hello"] :=
  ⟨rfl, rfl⟩

/-- C7 counterexample: the claim asserts that an Update supplying the
empty-string description is not rejected by the at-least-one-field check.
The route's guard `not task_update.title and not task_update.description`
uses Python truthiness, under which `""` is falsy, so that request is
rejected with the at-least-one-field error. -/
theorem update_empty_description_rejected :
    update_task_endpoint dbHello 1 none (some "") (some "A")
        = (dbHello, UpdateResult.atLeastOneFieldError) ∧
    (some "" : Option String) ≠ none :=
  ⟨rfl, by decide⟩

/-- Whenever at least one of the two fields is truthy, the route handler
does not produce the at-least-one-field error. -/
lemma update_endpoint_snd_ne_atLeastOneField (db : DB) (tid : Nat)
    (title de uid : Option String)
    (h : truthyStr title = true ∨ truthyStr de = true) :
    (update_task_endpoint db tid title de uid).2 ≠ .atLeastOneFieldError := by
  have hguard : (!truthyStr title && !truthyStr de) = false := by
    rcases h with h | h <;> simp [h]
  unfold update_task_endpoint
  rcases hres : TaskService.update_task db tid title de uid with ⟨db1, r⟩
  simp only [hguard, Bool.false_eq_true, if_false]
  split
  · simp
  · split
    · simp
    · rcases r with e | o
      · rcases e
        simp [hres]
      · rcases o with _ | t <;> simp [hres]

/-- C7 amended: the route handler returns the at-least-one-field validation
error exactly when neither a truthy (non-`None`, non-empty) title nor a
truthy description is supplied — a supplied empty-string description counts
as absent — and on that error the store is unchanged and no history row is
appended. -/
theorem update_at_least_one_field_check (db : DB) (tid : Nat)
    (title de uid : Option String) :
    ((update_task_endpoint db tid title de uid).2 = .atLeastOneFieldError ↔
      (truthyStr title = false ∧ truthyStr de = false)) ∧
    (truthyStr title = false → truthyStr de = false →
      update_task_endpoint db tid title de uid = (db, .atLeastOneFieldError)) := by
  constructor
  · constructor
    · intro h
      rcases ht : truthyStr title
      · rcases hd : truthyStr de
        · exact ⟨rfl, rfl⟩
        · exact absurd h (update_endpoint_snd_ne_atLeastOneField db tid title de uid (Or.inr hd))
      · exact absurd h (update_endpoint_snd_ne_atLeastOneField db tid title de uid (Or.inl ht))
    · rintro ⟨ht, hd⟩
      simp [update_task_endpoint, ht, hd]
  · intro ht hd
    simp [update_task_endpoint, ht, hd]

/-- Witness for the C7 amended theorem at a concrete input. -/
theorem update_at_least_one_field_check_witness :
    truthyStr none = false ∧ truthyStr (some "") = false ∧
    update_task_endpoint dbHello 1 none (some "") (some "A")
        = (dbHello, .atLeastOneFieldError) :=
  ⟨rfl, rfl,
    (update_at_least_one_field_check dbHello 1 none (some "") (some "A")).2 rfl rfl⟩

/-- Task A of the spec's List-ordering example: complete, created at T1. -/
def taskA : Task :=
  { id := 1, title := "A", description := none, is_completed := true
    created_at := 1, updated_at := 1, completed_at := some 4, user_id := some "u" }

/-- Task B of the example: incomplete, created at T2 > T1. -/
def taskB : Task :=
  { id := 2, title := "B", description := none, is_completed := false
    created_at := 2, updated_at := 2, completed_at := none, user_id := some "u" }

/-- Task C of the example: incomplete, created at T3 > T2. -/
def taskC : Task :=
  { id := 3, title := "C", description := none, is_completed := false
    created_at := 3, updated_at := 3, completed_at := none, user_id := some "u" }

/-- Store holding the three example tasks of one owner. -/
def dbListEx : DB :=
  { tasks := [taskA, taskB, taskC], history := []
    clock := 10, nextTaskId := 4, nextHistoryId := 1 }

/-- C9: `get_all_tasks` returns exactly the caller's tasks (membership is
ownership), sorted with incomplete rows before complete ones and newer
`created_at` first within equal completion flags; in particular the spec's
example store lists C, then B, then A. -/
theorem get_all_tasks_ordering :
    (∀ (db : DB) (uid : Option String),
      (∀ t : Task, t ∈ TaskService.get_all_tasks db uid ↔
        (t ∈ db.tasks ∧ t.user_id = uid)) ∧
      List.Sorted TaskService.taskLe (TaskService.get_all_tasks db uid)) ∧
    TaskService.get_all_tasks dbListEx (some "u") = [taskC, taskB, taskA] := by
  refine ⟨fun db uid => ⟨fun t => ?_, ?_⟩, by decide⟩
  · simp [TaskService.get_all_tasks, List.mem_filter]
  · exact List.sorted_insertionSort TaskService.taskLe _

/-- C10: the weekly-stats endpoint is a function of the store alone (it
resolves no caller identity), and each of its counts is computed over the
tasks of all owners: for any owner split the count is the sum of that
owner's contribution and every other owner's contribution, and the total
equals completed plus incomplete. -/
theorem weekly_stats_count_all_owners (db : DB) (ws we : Nat)
    (uid : Option String) :
    (weekly_stats_endpoint db ws we).total_tasks
        = (weekly_stats_endpoint db ws we).total_completed
          + (weekly_stats_endpoint db ws we).total_incomplete ∧
    (weekly_stats_endpoint db ws we).total_tasks
        = (db.tasks.filter (fun t => t.user_id == uid)).length
          + (db.tasks.filter (fun t => !(t.user_id == uid))).length ∧
    (weekly_stats_endpoint db ws we).total_completed
        = ((db.tasks.filter (fun t => t.user_id == uid)).filter
            (fun t => t.is_completed)).length
          + ((db.tasks.filter (fun t => !(t.user_id == uid))).filter
            (fun t => t.is_completed)).length ∧
    (weekly_stats_endpoint db ws we).tasks_created_this_week
        = ((db.tasks.filter (fun t => t.user_id == uid)).filter
            (fun t => decide (ws ≤ t.created_at) && decide (t.created_at ≤ we))).length
          + ((db.tasks.filter (fun t => !(t.user_id == uid))).filter
            (fun t => decide (ws ≤ t.created_at) && decide (t.created_at ≤ we))).length ∧
    (weekly_stats_endpoint db ws we).tasks_completed_this_week
        = ((db.tasks.filter (fun t => t.user_id == uid)).filter
            (fun t => match t.completed_at with
              | some c => decide (ws ≤ c) && decide (c ≤ we)
              | none => false)).length
          + ((db.tasks.filter (fun t => !(t.user_id == uid))).filter
            (fun t => match t.completed_at with
              | some c => decide (ws ≤ c) && decide (c ≤ we)
              | none => false)).length := by
  have hsplit : ∀ (l : List Task) (q : Task → Bool),
      (l.filter q).length
        = ((l.filter (fun t => t.user_id == uid)).filter q).length
          + ((l.filter (fun t => !(t.user_id == uid))).filter q).length := by
    intro l q
    rw [List.filter_comm, List.filter_comm q]
    exact List.length_eq_length_filter_add (fun t : Task => t.user_id == uid)
  have hcompl : (fun t : Task => t.is_completed == false)
      = (fun t : Task => !t.is_completed) := by
    funext t
    exact beq_false t.is_completed
  refine ⟨?_, ?_, ?_, ?_, ?_⟩
  · show db.tasks.length
        = (db.tasks.filter (fun t : Task => t.is_completed)).length
          + (db.tasks.filter (fun t : Task => t.is_completed == false)).length
    rw [hcompl]
    exact List.length_eq_length_filter_add (fun t : Task => t.is_completed)
  · exact List.length_eq_length_filter_add (fun t : Task => t.user_id == uid)
  · exact hsplit db.tasks (fun t => t.is_completed)
  · exact hsplit db.tasks
      (fun t => decide (ws ≤ t.created_at) && decide (t.created_at ≤ we))
  · exact hsplit db.tasks
      (fun t => match t.completed_at with
        | some c => decide (ws ≤ c) && decide (c ≤ we)
        | none => false)

/-- Finding a task by id succeeds on the unique member carrying that id. -/
lemma find?_task_eq_some (l : List Task) (t : Task) (tid : Nat)
    (hmem : t ∈ l) (hid : t.id = tid)
    (huniq : ∀ u ∈ l, u.id = tid → u = t) :
    l.find? (fun x => x.id == tid) = some t := by
  induction l with
  | nil => cases hmem
  | cons x xs ih =>
    by_cases hx : x.id = tid
    · have hxt : x = t := huniq x (List.mem_cons_self x xs) hx
      rw [List.find?_cons_of_pos _ (by simp [hx]), hxt]
    · rw [List.find?_cons_of_neg _ (by simp [hx])]
      have hmem' : t ∈ xs := by
        rcases List.mem_cons.mp hmem with rfl | h
        · exact absurd hid hx
        · exact h
      exact ih hmem' (fun u hu h2 => huniq u (List.mem_cons_of_mem _ hu) h2)

/-- C3: the Lifecycle Service distinguishes not-found from ownership
violations.  When no task carries the id, `get_task` signals not-found
(`None`, mapped to 404 by the routes) and every resolving operation does the
same with no state change; when the task exists under a different owner,
`get_task` raises the 403 ownership violation and every resolving operation
propagates it unchanged — never not-found. -/
theorem get_task_discriminates (db : DB) (tid : Nat) (uid : Option String) :
    ((∀ u ∈ db.tasks, u.id ≠ tid) →
      (TaskService.get_task db tid uid = .ok none ∧
       (∀ ti de, TaskService.update_task db tid ti de uid = (db, .ok none)) ∧
       TaskService.delete_task db tid uid = (db, .ok false) ∧
       TaskService.mark_complete db tid uid = (db, .ok none) ∧
       TaskService.mark_incomplete db tid uid = (db, .ok none))) ∧
    (∀ t : Task, t ∈ db.tasks → t.id = tid →
      (∀ u ∈ db.tasks, u.id = tid → u = t) → t.user_id ≠ uid →
      (TaskService.get_task db tid uid = .error .forbidden ∧
       (∀ ti de, TaskService.update_task db tid ti de uid = (db, .error .forbidden)) ∧
       TaskService.delete_task db tid uid = (db, .error .forbidden) ∧
       TaskService.mark_complete db tid uid = (db, .error .forbidden) ∧
       TaskService.mark_incomplete db tid uid = (db, .error .forbidden))) := by
  constructor
  · intro h
    have hfind : db.tasks.find? (fun x => x.id == tid) = none := by
      rw [List.find?_eq_none]
      intro x hx
      simp [h x hx]
    have hget : TaskService.get_task db tid uid = .ok none := by
      unfold TaskService.get_task
      rw [hfind]
    refine ⟨hget, fun ti de => ?_, ?_, ?_, ?_⟩ <;>
      first
        | (unfold TaskService.update_task; rw [hget])
        | (unfold TaskService.delete_task; rw [hget])
        | (unfold TaskService.mark_complete; rw [hget])
        | (unfold TaskService.mark_incomplete; rw [hget])
  · intro t hmem hid huniq howner
    have hfind := find?_task_eq_some db.tasks t tid hmem hid huniq
    have hget : TaskService.get_task db tid uid = .error .forbidden := by
      unfold TaskService.get_task
      rw [hfind]
      simp [howner]
    refine ⟨hget, fun ti de => ?_, ?_, ?_, ?_⟩ <;>
      first
        | (unfold TaskService.update_task; rw [hget])
        | (unfold TaskService.delete_task; rw [hget])
        | (unfold TaskService.mark_complete; rw [hget])
        | (unfold TaskService.mark_incomplete; rw [hget])

/-- Witness for C3 at concrete inputs: id 99 is absent (not-found), id 2
exists but belongs to owner "B", so caller "A" gets the ownership
violation. -/
theorem get_task_discriminates_witness :
    TaskService.get_task dbTwoOwners 99 (some "A") = .ok none ∧
    TaskService.get_task dbTwoOwners 2 (some "A") = .error .forbidden :=
  ⟨((get_task_discriminates dbTwoOwners 99 (some "A")).1 (by decide)).1,
   ((get_task_discriminates dbTwoOwners 2 (some "A")).2 taskOther (by decide) rfl
      (by decide) (by decide)).1⟩

/-- Row-level invariant of `models/task.py`'s
`task_completed_at_consistency` check: `completed_at` is present iff the
completion flag is set. -/
def taskInv (t : Task) : Prop :=
  t.completed_at.isSome = t.is_completed

instance (t : Task) : Decidable (taskInv t) := by
  unfold taskInv
  infer_instance

/-- Store-level form of the invariant: every stored row satisfies it. -/
def dbInv (db : DB) : Prop :=
  ∀ t ∈ db.tasks, taskInv t

instance (db : DB) : Decidable (dbInv db) := by
  unfold dbInv
  exact List.decidableBAll _ _

/-- Replacing the row with a given id by an invariant-satisfying row keeps
every row invariant-satisfying. -/
lemma tasksInv_replace (l : List Task) (tid : Nat) (t' : Task)
    (h : ∀ x ∈ l, taskInv x) (ht : taskInv t') :
    ∀ y ∈ l.map (fun x => if x.id == tid then t' else x), taskInv y := by
  intro y hy
  rcases List.mem_map.mp hy with ⟨x, hx, hxy⟩
  by_cases hxid : (x.id == tid) = true
  · rw [← hxy, if_pos hxid]
    exact ht
  · rw [← hxy, if_neg hxid]
    exact h x hx

/-- A task returned by `get_task` is a stored row. -/
lemma get_task_mem (db : DB) (tid : Nat) (uid : Option String) (t : Task)
    (h : TaskService.get_task db tid uid = .ok (some t)) : t ∈ db.tasks := by
  unfold TaskService.get_task at h
  cases hfind : db.tasks.find? (fun x => x.id == tid) with
  | none =>
    rw [hfind] at h
    simp at h
  | some x =>
    rw [hfind] at h
    by_cases hu : x.user_id ≠ uid
    · simp [hu] at h
    · simp [hu] at h
      exact h ▸ List.mem_of_find?_eq_some hfind

/-- C4: the completed-timestamp biconditional holds after every Lifecycle
Service operation: starting from a store where every task satisfies it,
Create yields a task with the flag false and no timestamp (and a store that
still satisfies it), and Update, Delete, MarkComplete and MarkIncomplete
all preserve it. -/
theorem completed_at_iff_completed (db : DB) (h : dbInv db) :
    (∀ title de uid, dbInv (TaskService.create_task db title de uid).1 ∧
       (TaskService.create_task db title de uid).2.is_completed = false ∧
       (TaskService.create_task db title de uid).2.completed_at = none) ∧
    (∀ tid ti de uid, dbInv (TaskService.update_task db tid ti de uid).1) ∧
    (∀ tid uid, dbInv (TaskService.delete_task db tid uid).1) ∧
    (∀ tid uid, dbInv (TaskService.mark_complete db tid uid).1) ∧
    (∀ tid uid, dbInv (TaskService.mark_incomplete db tid uid).1) := by
  refine ⟨?_, ?_, ?_, ?_, ?_⟩
  · intro title de uid
    refine ⟨?_, rfl, rfl⟩
    intro x hx
    have hx' : x ∈ db.tasks ++
        [(TaskService.insert_task_commit db title de uid).2] := hx
    rcases List.mem_append.mp hx' with hmem | hmem
    · exact h x hmem
    · rw [List.mem_singleton.mp hmem]
      rfl
  · intro tid ti de uid
    unfold TaskService.update_task
    cases hget : TaskService.get_task db tid uid with
    | error e => exact h
    | ok o =>
      cases o with
      | none => exact h
      | some task =>
        have htask : taskInv task := h task (get_task_mem db tid uid task hget)
        exact tasksInv_replace db.tasks tid _ h htask
  · intro tid uid
    unfold TaskService.delete_task
    cases hget : TaskService.get_task db tid uid with
    | error e => exact h
    | ok o =>
      cases o with
      | none => exact h
      | some task =>
        intro x hx
        exact h x (List.mem_of_mem_filter hx)
  · intro tid uid
    unfold TaskService.mark_complete
    cases hget : TaskService.get_task db tid uid with
    | error e => exact h
    | ok o =>
      cases o with
      | none => exact h
      | some task => exact tasksInv_replace db.tasks tid _ h rfl
  · intro tid uid
    unfold TaskService.mark_incomplete
    cases hget : TaskService.get_task db tid uid with
    | error e => exact h
    | ok o =>
      cases o with
      | none => exact h
      | some task => exact tasksInv_replace db.tasks tid _ h rfl

/-- Witness for C4 at a concrete store satisfying the invariant. -/
theorem completed_at_iff_completed_witness :
    dbInv dbHello ∧
    dbInv (TaskService.mark_complete dbHello 1 (some "A")).1 ∧
    (TaskService.create_task dbHello "t" none (some "A")).2.completed_at = none :=
  ⟨by decide,
   (completed_at_iff_completed dbHello (by decide)).2.2.2.1 1 (some "A"),
   ((completed_at_iff_completed dbHello (by decide)).1 "t" none (some "A")).2.2⟩

/-- Ceiling division, written `(n + k - 1) / k` in the source, agrees with
the spec's `ceil(n / k)` characterised without the shifted numerator. -/
lemma ceil_div_formula (n k : Nat) (hk : 1 ≤ k) :
    (n + k - 1) / k = if n = 0 then 0 else (n - 1) / k + 1 := by
  rcases n with _ | m
  · simp only [Nat.zero_add, if_pos rfl]
    exact Nat.div_eq_of_lt (by omega)
  · simp only [if_neg (Nat.succ_ne_zero m)]
    have h1 : m + 1 + k - 1 = m + k := by omega
    have h2 : m + 1 - 1 = m := by omega
    rw [h1, h2]
    exact Nat.add_div_right m (by omega)

/-- C5: pagination arithmetic of `get_history_paginated` for any matching
row list and any valid `page ≥ 1`, `limit ∈ [1, 100]`.  With an explicit
offset the items are the window `[offset, offset + limit)` of the matching
rows and the current page is `offset / limit + 1` regardless of `page`;
without one they are `[(page-1)·limit, page·limit)` and the current page is
`page`; total pages is `ceil(total / limit)`, `has_next` is
`current < totalPages` and `has_prev` is `current > 1`. -/
theorem history_pagination_spec (db : DB) (page limit : Nat)
    (tid : Option Nat) (atype : Option ActionType)
    (hp : 1 ≤ page) (hl : 1 ≤ limit) (hl100 : limit ≤ 100) :
    (∀ o : Nat,
      (HistoryService.get_history_paginated db page limit (some o) tid atype).items.length
          = min limit ((HistoryService.matching_history db tid atype).length - o) ∧
      (∀ i : Nat,
        (HistoryService.get_history_paginated db page limit (some o) tid atype).items[i]?
          = if i < limit then
              (HistoryService.matching_history db tid atype)[o + i]? else none) ∧
      (HistoryService.get_history_paginated db page limit (some o) tid atype).pagination.current_page = o / limit + 1) ∧
    ((HistoryService.get_history_paginated db page limit none tid atype).items.length
        = min limit
            ((HistoryService.matching_history db tid atype).length - (page - 1) * limit) ∧
      (∀ i : Nat,
        (HistoryService.get_history_paginated db page limit none tid atype).items[i]?
          = if i < limit then
              (HistoryService.matching_history db tid atype)[(page - 1) * limit + i]?
            else none) ∧
      (HistoryService.get_history_paginated db page limit none tid atype).pagination.current_page = page) ∧
    (∀ off : Option Nat,
      (HistoryService.get_history_paginated db page limit off tid atype).pagination.total_count
        = (HistoryService.matching_history db tid atype).length ∧
      (HistoryService.get_history_paginated db page limit off tid atype).pagination.total_pages
        = (if (HistoryService.matching_history db tid atype).length = 0 then 0
           else ((HistoryService.matching_history db tid atype).length - 1) / limit + 1) ∧
      ((HistoryService.get_history_paginated db page limit off tid atype).pagination.has_next = true ↔
        (HistoryService.get_history_paginated db page limit off tid atype).pagination.current_page <
          (HistoryService.get_history_paginated db page limit off tid atype).pagination.total_pages) ∧
      ((HistoryService.get_history_paginated db page limit off tid atype).pagination.has_prev = true ↔
        1 < (HistoryService.get_history_paginated db page limit off tid atype).pagination.current_page)) := by
  refine ⟨fun o => ⟨?_, fun i => ?_, rfl⟩, ⟨?_, fun i => ?_, rfl⟩, fun off => ⟨?_, ?_, ?_, ?_⟩⟩
  · show (((HistoryService.matching_history db tid atype).drop o).take limit).length = _
    rw [List.length_take, List.length_drop]
  · show (((HistoryService.matching_history db tid atype).drop o).take limit)[i]? = _
    rw [List.getElem?_take]
    by_cases hi : i < limit
    · rw [if_pos hi, if_pos hi, List.getElem?_drop]
    · rw [if_neg hi, if_neg hi]
  · show (((HistoryService.matching_history db tid atype).drop
        ((page - 1) * limit)).take limit).length = _
    rw [List.length_take, List.length_drop]
  · show (((HistoryService.matching_history db tid atype).drop
        ((page - 1) * limit)).take limit)[i]? = _
    rw [List.getElem?_take]
    by_cases hi : i < limit
    · rw [if_pos hi, if_pos hi, List.getElem?_drop]
    · rw [if_neg hi, if_neg hi]
  · cases off <;> rfl
  · cases off <;>
      exact ceil_div_formula (HistoryService.matching_history db tid atype).length limit hl
  · cases off <;> exact decide_eq_true_iff
  · cases off <;> exact decide_eq_true_iff

/-- Witness for C5, containing the spec's example: `offset = 20`,
`limit = 10` reports current page 3. -/
theorem history_pagination_spec_witness :
    1 ≤ 1 ∧ 1 ≤ 10 ∧ 10 ≤ 100 ∧
    (HistoryService.get_history_paginated dbTwoOwners 1 10 (some 20) none none).pagination.current_page = 3 := by
  refine ⟨by decide, by decide, by decide, ?_⟩
  have h := ((history_pagination_spec dbTwoOwners 1 10 none none
      (by decide) (by decide) (by decide)).1 20).2.2
  simpa using h

/-- Finding by id after replacing the row with that id finds the
replacement. -/
lemma find?_replace (l : List Task) (tid : Nat) (t' : Task) (h : t'.id = tid) :
    (l.map (fun x => if x.id == tid then t' else x)).find? (fun x => x.id == tid)
      = (l.find? (fun x => x.id == tid)).map (fun _ => t') := by
  induction l with
  | nil => rfl
  | cons x xs ih =>
    by_cases hx : (x.id == tid) = true
    · rw [List.map_cons, if_pos hx, List.find?_cons_of_pos _ (by simp [h]),
        List.find?_cons_of_pos _ (by simp [hx])]
      rfl
    · rw [List.map_cons, if_neg hx, List.find?_cons_of_neg _ (by simp [hx]),
        List.find?_cons_of_neg _ (by simp [hx])]
      exact ih

/-- C8: on an owned, found task, MarkComplete then MarkIncomplete returns a
task with the completion flag cleared and no completed timestamp, leaves
every stored row with that id cleared likewise, and appends exactly two
history rows beyond those already present: a COMPLETED row then an
INCOMPLETED row, strictly ordered by their timestamps. -/
theorem mark_complete_then_incomplete (db : DB) (tid : Nat)
    (uid : Option String) (t : Task)
    (hfind : db.tasks.find? (fun x => x.id == tid) = some t)
    (howner : t.user_id = uid) :
    ((TaskService.mark_incomplete (TaskService.mark_complete db tid uid).1 tid uid).2
        = .ok (some { t with is_completed := false, completed_at := none
                             updated_at := db.clock + 3 })) ∧
    (∀ x ∈ (TaskService.mark_incomplete
        (TaskService.mark_complete db tid uid).1 tid uid).1.tasks,
      x.id = tid → (x.is_completed = false ∧ x.completed_at = none)) ∧
    (∃ h1 h2 : TaskHistory,
      (TaskService.mark_incomplete
          (TaskService.mark_complete db tid uid).1 tid uid).1.history
        = db.history ++ [h1, h2] ∧
      h1.action_type = .COMPLETED ∧ h2.action_type = .INCOMPLETED ∧
      h1.task_id = tid ∧ h2.task_id = tid ∧ h1.timestamp < h2.timestamp) := by
  have hid : t.id = tid := by
    have := List.find?_some hfind
    simpa using this
  have hget1 : TaskService.get_task db tid uid = .ok (some t) := by
    unfold TaskService.get_task
    rw [hfind]
    simp [howner]
  have e1 : TaskService.mark_complete db tid uid
      = (TaskService.log_history
          { TaskService.replaceTask db tid
              { t with is_completed := true, completed_at := some db.clock
                       updated_at := db.clock + 1 } with clock := db.clock + 2 }
          tid .COMPLETED (some "Task marked as completed"),
        .ok (some { t with is_completed := true, completed_at := some db.clock
                           updated_at := db.clock + 1 })) := by
    unfold TaskService.mark_complete
    rw [hget1]
  have hfind2 : (TaskService.mark_complete db tid uid).1.tasks.find?
      (fun x => x.id == tid)
      = some { t with is_completed := true, completed_at := some db.clock
                      updated_at := db.clock + 1 } := by
    rw [e1]
    show (db.tasks.map _).find? _ = _
    rw [find?_replace db.tasks tid
        { t with is_completed := true, completed_at := some db.clock
                 updated_at := db.clock + 1 } hid, hfind]
    rfl
  have hget2 : TaskService.get_task (TaskService.mark_complete db tid uid).1 tid uid
      = .ok (some { t with is_completed := true, completed_at := some db.clock
                           updated_at := db.clock + 1 }) := by
    unfold TaskService.get_task
    rw [hfind2]
    simp [howner]
  have e2 : TaskService.mark_incomplete (TaskService.mark_complete db tid uid).1 tid uid
      = (TaskService.log_history
          { TaskService.replaceTask (TaskService.mark_complete db tid uid).1 tid
              { t with is_completed := false, completed_at := none
                       updated_at := (TaskService.mark_complete db tid uid).1.clock }
            with clock := (TaskService.mark_complete db tid uid).1.clock + 1 }
          tid .INCOMPLETED (some "Task marked as incomplete"),
        .ok (some { t with is_completed := false, completed_at := none
                           updated_at := (TaskService.mark_complete db tid uid).1.clock })) := by
    unfold TaskService.mark_incomplete
    rw [hget2]
  have hclock1 : (TaskService.mark_complete db tid uid).1.clock = db.clock + 3 := by
    rw [e1]
    rfl
  refine ⟨?_, ?_, ?_⟩
  · rw [e2, hclock1]
  · intro x hx hxid
    rw [e2] at hx
    have hx' : x ∈ ((TaskService.mark_complete db tid uid).1.tasks.map
        (fun y => if y.id == tid then
          { t with is_completed := false, completed_at := none
                   updated_at := (TaskService.mark_complete db tid uid).1.clock }
          else y)) := hx
    rcases List.mem_map.mp hx' with ⟨y, hy, hyx⟩
    by_cases hyid : (y.id == tid) = true
    · rw [if_pos hyid] at hyx
      rw [← hyx]
      exact ⟨rfl, rfl⟩
    · rw [if_neg hyid] at hyx
      rw [← hyx] at hxid
      exact absurd (by simp [hxid]) hyid
  · refine ⟨{ history_id := db.nextHistoryId, task_id := tid
              action_type := .COMPLETED
              description := some "Task marked as completed"
              timestamp := db.clock + 2 },
            { history_id := db.nextHistoryId + 1, task_id := tid
              action_type := .INCOMPLETED
              description := some "Task marked as incomplete"
              timestamp := db.clock + 4 }, ?_, rfl, rfl, rfl, rfl,
            by show db.clock + 2 < db.clock + 4; omega⟩
    rw [e2, e1]
    show (db.history ++ [_]) ++ [_] = _
    rw [List.append_assoc]
    rfl

/-- Witness for C8 at a concrete store with one owned task. -/
theorem mark_complete_then_incomplete_witness :
    dbHello.tasks.find? (fun x => x.id == 1) = some taskHello ∧
    taskHello.user_id = some "A" ∧
    (∃ h1 h2 : TaskHistory,
      (TaskService.mark_incomplete
          (TaskService.mark_complete dbHello 1 (some "A")).1 1 (some "A")).1.history
        = dbHello.history ++ [h1, h2] ∧
      h1.action_type = .COMPLETED ∧ h2.action_type = .INCOMPLETED ∧
      h1.task_id = 1 ∧ h2.task_id = 1 ∧ h1.timestamp < h2.timestamp) :=
  ⟨rfl, rfl,
   (mark_complete_then_incomplete dbHello 1 (some "A") taskHello rfl rfl).2.2⟩

end Todo
